import Mathlib

/-!
Verification of the hart-heatmaps-app core pipeline (src/parsing.py).

The development shallowly embeds the two core functions of the repository:
`parse_workamajig_csv` (the export parser) and `build_weekly_headcount`
(the weekly headcount aggregator), together with their helpers
`extract_dates`, the department constants, and the roster join.

Modelling conventions:
- pandas Timestamps are day numbers (days since 1970-01-01) of type Int;
  `pd.Timedelta(weeks=12)` is the integer 84.
- CSV cells are a three-way sum: blank (NaN), a number, or a string.
- Hours and FTE demand are rationals; the source uses floats but every
  claim in scope is an exact algebraic statement about the dataflow.
- Fallible pandas steps (exceptions such as the column-length mismatch
  ValueError or a to_datetime failure on the report date) make the parser
  return none; column-local to_datetime failures become the NaT marker,
  modelled as none inside the week-label list, exactly as in the source.
- The export model keeps, per body row, the Name cell (column 1) and the
  hour cells (columns 5 onward); the fixed unnamed marker columns 0,2,3,4
  are dropped unconditionally in the source for the fixed layout and are
  therefore not carried. `bodyNCols` is the inferred width of the body
  table, used by the column-assignment length check.
-/

namespace Hart

/-- A CSV cell as pandas sees it: missing (NaN), numeric, or text. -/
inductive Cell where
  | blank : Cell
  | num : ℚ → Cell
  | str : String → Cell
deriving DecidableEq, Repr

/-- One row of a roster sheet after renaming to the (Name, Department) shape. -/
structure RosterRow where
  name : String
  department : String
deriving DecidableEq, Repr

/-- One row of the long-form table: (ResourceName, Week, Hours).
Week is none for the NaT marker produced by an unparseable header column. -/
structure LongRecord where
  name : String
  week : Option Int
  hours : ℚ
deriving DecidableEq, Repr

/-- One row of the aggregated weekly gap table. -/
structure WeeklyGapRow where
  department : String
  week : Int
  demand : ℚ
  available : ℤ
  gap : ℚ
deriving DecidableEq, Repr

/-- The canonical department list of src/parsing.py. -/
def VALID_DEPARTMENTS : List String :=
  [ "Creative - Designer", "Creative - Writer",
    "Tech - Front-end", "Tech - Back-end",
    "Video", "Strategy",
    "PR - Traditional", "PR - Social" ]

/-- Hours per full-time equivalent (HOURS_PER_FTE = 32). -/
def HOURS_PER_FTE : ℚ := 32

/-! ## Calendar arithmetic: pd.to_datetime on explicit components -/

def isLeap (y : Nat) : Bool :=
  y % 4 == 0 && (y % 100 != 0 || y % 400 == 0)

def daysInMonth (y m : Nat) : Nat :=
  if m = 2 then (if isLeap y then 29 else 28)
  else if m = 4 ∨ m = 6 ∨ m = 9 ∨ m = 11 then 30
  else 31

/-- Day number (days since 1970-01-01) of a proleptic Gregorian date with
positive year, via the standard civil-from-date computation. -/
def daysFromCivil (y m d : Nat) : Int :=
  let y2 := if m ≤ 2 then y - 1 else y
  let era := y2 / 400
  let yoe := y2 % 400
  let mp := (m + 9) % 12
  let doy := (153 * mp + 2) / 5 + (d - 1)
  let doe := yoe * 365 + yoe / 4 - yoe / 100 + doy
  (era * 146097 + doe : Int) - 719468

/-- Model of constructing a timestamp from year, month and day components:
none when the components do not form a valid date (to_datetime raises). -/
def mkDate (y m : Nat) (d : Int) : Option Int :=
  if 1 ≤ y ∧ 1 ≤ m ∧ m ≤ 12 ∧ 1 ≤ d ∧ d ≤ (daysInMonth y m : Int) then
    some (daysFromCivil y m d.toNat)
  else none

/-! ## Cell coercions -/

def digitVal (c : Char) : Nat := c.toNat - '0'.toNat

def digitsVal (cs : List Char) : Nat :=
  cs.foldl (fun acc c => 10 * acc + digitVal c) 0

/-- Unsigned decimal literal: digits with an optional fractional part.
The value digits.frac equals (digits * 10 ^ k + frac) / 10 ^ k where k is
the length of the fractional part; mkRat normalises the fraction. -/
def parseUnsignedDecimal (cs : List Char) : Option ℚ :=
  let intPart := cs.takeWhile Char.isDigit
  match cs.dropWhile Char.isDigit with
  | [] =>
    if intPart.isEmpty then none
    else some (mkRat (digitsVal intPart) 1)
  | '.' :: frac =>
    if frac.all Char.isDigit ∧ ¬ (intPart.isEmpty ∧ frac.isEmpty) then
      some (mkRat (digitsVal intPart * 10 ^ frac.length + digitsVal frac)
        (10 ^ frac.length))
    else none
  | _ => none

/-- Model of float(s) for plain decimal literals: optional sign, digits,
optional fractional part. Returns none when float() would raise. -/
def parseDecimal (s : String) : Option ℚ :=
  match s.toList with
  | '-' :: cs => (parseUnsignedDecimal cs).map (fun q => -q)
  | '+' :: cs => parseUnsignedDecimal cs
  | cs => parseUnsignedDecimal cs

/-- Model of str(m) on a cell: NaN prints as "nan". -/
def cellStr : Cell → String
  | Cell.blank => "nan"
  | Cell.num q => toString q
  | Cell.str s => s

/-- Model of int(float(d)) on a day cell: truncation toward zero;
none when float() or int() would raise (NaN, or a non-numeric string). -/
def cellToDayInt : Cell → Option Int
  | Cell.blank => none
  | Cell.num q => some (q.num / (q.den : ℤ))
  | Cell.str s => (parseDecimal s).map (fun q => q.num / (q.den : ℤ))

/-- Model of pd.to_numeric(errors="coerce").fillna(0) on an hour cell. -/
def coerceHours : Cell → ℚ
  | Cell.blank => 0
  | Cell.num q => q
  | Cell.str s => (parseDecimal s).getD 0

/-! ## extract_dates -/

/-- Forward fill: a blank cell takes the last non-blank value seen. -/
def ffillAux : Cell → List Cell → List Cell
  | _, [] => []
  | prev, Cell.blank :: rest => prev :: ffillAux prev rest
  | _, c :: rest => c :: ffillAux c rest

def ffill (l : List Cell) : List Cell := ffillAux Cell.blank l

/-- Month names recognised by pd.to_datetime in the composed
"month day, year" string: full names and three-letter abbreviations,
case-insensitive. -/
def MONTH_NAMES : List (String × Nat) :=
  [ ("january", 1), ("jan", 1), ("february", 2), ("feb", 2),
    ("march", 3), ("mar", 3), ("april", 4), ("apr", 4),
    ("may", 5), ("june", 6), ("jun", 6), ("july", 7), ("jul", 7),
    ("august", 8), ("aug", 8), ("september", 9), ("sep", 9),
    ("october", 10), ("oct", 10), ("november", 11), ("nov", 11),
    ("december", 12), ("dec", 12) ]

def charLower (c : Char) : Char :=
  if 'A' ≤ c ∧ c ≤ 'Z' then Char.ofNat (c.toNat + 32) else c

def monthNum (w : List Char) : Option Nat :=
  MONTH_NAMES.lookup (String.mk (w.map charLower))

/-- Model of python str.split with no argument on the space character:
splits on runs of spaces and drops empty pieces. The first argument
accumulates the current word in reverse. -/
def splitWordsAux : List Char → List Char → List (List Char)
  | acc, [] => if acc.isEmpty then [] else [acc.reverse]
  | acc, c :: rest =>
    if c = ' ' then
      if acc.isEmpty then splitWordsAux [] rest
      else acc.reverse :: splitWordsAux [] rest
    else splitWordsAux (c :: acc) rest

def splitWords (cs : List Char) : List (List Char) := splitWordsAux [] cs

/-- Model of int(s) on a year token: digits only. -/
def natOfDigits (cs : List Char) : Option Nat :=
  if ¬ cs.isEmpty ∧ cs.all Char.isDigit then some (digitsVal cs) else none

/-- Embedding of extract_dates: forward-fill the month row, zip with the
day row, and per column try to build a date; any failure in a column
yields none (NaT) for that column only. The source tests for a space in
str(m), unpacks str(m).split() into exactly two names, and calls
to_datetime on the composed month-day-year text. -/
def extract_dates (monthRow dayRow : List Cell) : List (Option Int) :=
  (List.zip (ffill monthRow) dayRow).map (fun md =>
    let mCs := (cellStr md.1).toList
    if mCs.any (fun c => c = ' ') then
      match splitWords mCs with
      | [monthName, yearStr] =>
        match monthNum monthName, natOfDigits yearStr, cellToDayInt md.2 with
        | some mo, some yr, some dy => mkDate yr mo dy
        | _, _, _ => none
      | _ => none
    else none)

/-! ## The report-date regular expression

The source pattern is the raw string r"Start Date:\\s*([0-9]{1,2}/[0-9]{1,2}/[0-9]{4})".
Inside a raw string, the two characters backslash backslash are the regex
escape for ONE literal backslash character, and the following s* matches
zero or more letters s. The matcher below implements exactly that
pattern, with the greedy one-or-two-digit groups of the original. -/

/-- Match [0-9]{1,2} followed by a slash, greedily, at the head. -/
def matchNumSlash : List Char → Option (Nat × List Char)
  | c0 :: c1 :: c2 :: rest =>
    if c0.isDigit ∧ c1.isDigit ∧ c2 = '/' then
      some (10 * digitVal c0 + digitVal c1, rest)
    else if c0.isDigit ∧ c1 = '/' then
      some (digitVal c0, c2 :: rest)
    else none
  | [c0, c1] =>
    if c0.isDigit ∧ c1 = '/' then some (digitVal c0, []) else none
  | _ => none

/-- Match exactly four digits at the head. -/
def match4Digits : List Char → Option Nat
  | a :: b :: c :: d :: _ =>
    if a.isDigit ∧ b.isDigit ∧ c.isDigit ∧ d.isDigit then
      some (1000 * digitVal a + 100 * digitVal b + 10 * digitVal c + digitVal d)
    else none
  | _ => none

/-- Match the part of the pattern after the literal "Start Date:":
one literal backslash, zero or more letters s, then the date group.
Returns (month, day, year). -/
def matchAfterColon (cs : List Char) : Option (Nat × Nat × Nat) :=
  match cs with
  | '\\' :: rest =>
    match matchNumSlash (rest.dropWhile (fun c => c = 's')) with
    | some (mo, r1) =>
      match matchNumSlash r1 with
      | some (dy, r2) =>
        match match4Digits r2 with
        | some yr => some (mo, dy, yr)
        | none => none
      | none => none
    | none => none
  | _ => none

def START_LITERAL : List Char := "Start Date:".toList

/-- re.search: try the pattern at each position, leftmost match wins. -/
def searchFrom : List Char → Option (Nat × Nat × Nat)
  | [] => none
  | c :: rest =>
    match (if START_LITERAL.isPrefixOf (c :: rest) then
             matchAfterColon ((c :: rest).drop START_LITERAL.length)
           else none) with
    | some v => some v
    | none => searchFrom rest

def searchStartDate (s : String) : Option (Nat × Nat × Nat) :=
  searchFrom s.toList

/-! ## parse_workamajig_csv -/

/-- One body row of the export: the Name cell (column 1) and the hour
cells (columns 5 onward, one per header week column). -/
structure BodyRow where
  name : String
  cells : List Cell
deriving DecidableEq, Repr

/-- The fixed-layout export, after the two pd.read_csv calls:
the first header cell as text, the month and day header rows sliced
from column 5, the inferred width of the body table, and the body rows. -/
structure RawExport where
  firstCell : String
  monthRow : List Cell
  dayRow : List Cell
  bodyNCols : Nat
  body : List BodyRow
deriving DecidableEq, Repr

/-- The wide-to-long reshape (df.melt with id_vars Name): one record per
(week column, body row) pair, column-major, hour cells coerced. Missing
cells in a short row read as blank, extra cells beyond the week columns
are ignored (the source truncates with iloc). -/
def meltRecords (dates : List (Option Int)) (body : List BodyRow) :
    List LongRecord :=
  dates.enum.flatMap (fun jw =>
    body.map (fun row =>
      { name := row.name, week := jw.2,
        hours := coerceHours (row.cells.getD jw.1 Cell.blank) }))

/-- Embedding of parse_workamajig_csv. `today` is pd.Timestamp.today
normalised to the day. Returns none where the source raises: a matched
report date whose components are invalid, a body narrower than two
columns (the rename of column 1), or a body narrower than the assigned
header list (the length-mismatch ValueError of the column assignment). -/
def parse_workamajig_csv (input : RawExport) (today : Int) :
    Option (List LongRecord × Int) :=
  match (match searchStartDate input.firstCell with
         | some mdy => mkDate mdy.2.2 mdy.1 (mdy.2.1 : Int)
         | none => some today) with
  | none => none
  | some rd =>
    if input.bodyNCols < 2 then none
    else if (extract_dates input.monthRow input.dayRow).length ≠ 0 ∧
            input.bodyNCols < 5 + (extract_dates input.monthRow input.dayRow).length then
      none
    else
      some (meltRecords (extract_dates input.monthRow input.dayRow) input.body, rd)

/-! ## build_weekly_headcount

The aggregator concatenates the two roster tables (employees first,
services appended), left-joins the long table on Name, keeps rows whose
Department is canonical, converts hours to FTE demand, groups by
(Department, Week) with null keys dropped, attaches the per-department
availability, computes the gap, and keeps the fixed forward window
report_date < Week and Week less or equal report_date + 84 days
(pd.Timedelta(weeks=12); the function takes no window parameter). -/

/-- The mapping rows whose Name equals the given resource name. -/
def matchesFor (mapping : List RosterRow) (n : String) : List RosterRow :=
  mapping.filter (fun m => m.name = n)

/-- The left-join rows contributed by one long record: one row per
matching mapping entry, or a single unmatched row with no department. -/
def mergeRow (mapping : List RosterRow) (r : LongRecord) :
    List (LongRecord × Option String) :=
  if (matchesFor mapping r.name).isEmpty then [(r, none)]
  else (matchesFor mapping r.name).map (fun m => (r, some m.department))

/-- merged = long_df.merge(mapping, on Name, how left). -/
def mergeLeft (longs : List LongRecord) (mapping : List RosterRow) :
    List (LongRecord × Option String) :=
  longs.flatMap (mergeRow mapping)

/-- The isin filter on Department: keep rows whose attached department is
present and canonical. -/
def validDF (rd : LongRecord × Option String) : Option (LongRecord × String) :=
  match rd.2 with
  | some d => if d ∈ VALID_DEPARTMENTS then some (rd.1, d) else none
  | none => none

/-- The merged table after the canonical-department filter. -/
def validMerged (longs : List LongRecord) (mapping : List RosterRow) :
    List (LongRecord × String) :=
  (mergeLeft longs mapping).filterMap validDF

/-- Summed FTE demand of one (Department, Week) group: the groupby sum of
Headcount_Demand = Hours / HOURS_PER_FTE. -/
def demandOf (merged : List (LongRecord × String)) (dept : String) (w : Int) : ℚ :=
  ((merged.filter (fun rd => rd.2 = dept ∧ rd.1.week = some w)).map
    (fun rd => rd.1.hours / HOURS_PER_FTE)).sum

/-- The (Department, Week) group keys; rows whose Week is the null marker
are dropped (groupby with dropna). -/
def keysOf (merged : List (LongRecord × String)) : List (String × Int) :=
  (merged.filterMap (fun rd => rd.1.week.map (fun w => (rd.2, w)))).dedup

/-- employees_df.groupby(Department)[Resource Name].count(): one entry per
department present in the employee roster. -/
def deptCounts (employees : List RosterRow) : List (String × Nat) :=
  ((employees.map (fun e => e.department)).dedup).map
    (fun d => (d, (employees.filter (fun e => e.department = d)).length))

/-- Availability of one department after reindex over the canonical list:
the group count when present, else 0, coerced to integer. -/
def availableLookup (employees : List RosterRow) (d : String) : ℤ :=
  ((((deptCounts employees).lookup d).getD 0 : Nat) : ℤ)

/-- The reindexed AvailableHeadcount mapping: exactly the canonical
departments, in order. -/
def availableHeadcount (employees : List RosterRow) : List (String × ℤ) :=
  VALID_DEPARTMENTS.map (fun d => (d, availableLookup employees d))

/-- The weekly table before the window mask: one row per group key, with
Demand, the Available lookup, and Gap = Available - Demand. -/
def rowsOf (merged : List (LongRecord × String)) (employees : List RosterRow) :
    List WeeklyGapRow :=
  (keysOf merged).map (fun k =>
    { department := k.1, week := k.2,
      demand := demandOf merged k.1 k.2,
      available := availableLookup employees k.1,
      gap := (availableLookup employees k.1 : ℚ) - demandOf merged k.1 k.2 })

/-- Embedding of build_weekly_headcount. The window mask keeps rows with
report_date < Week and Week at most report_date + 84 days. -/
def build_weekly_headcount (longs : List LongRecord)
    (employees services : List RosterRow) (report_date : Int) :
    List WeeklyGapRow × List (String × ℤ) :=
  ((rowsOf (validMerged longs (employees ++ services)) employees).filter
      (fun row => report_date < row.week ∧ row.week ≤ report_date + 84),
   availableHeadcount employees)

/-! ## Helper lemmas -/

theorem getD_mem_or_eq {α : Type _} (l : List α) (i : Nat) (d : α) :
    l.getD i d ∈ l ∨ l.getD i d = d := by
  induction l generalizing i with
  | nil => right; simp [List.getD]
  | cons a t ih =>
    cases i with
    | zero => left; simp [List.getD]
    | succ n =>
      rcases ih n with h | h
      · left; simpa [List.getD] using Or.inr h
      · right; simpa [List.getD] using h

theorem snd_mem_of_enumFrom {α : Type _} :
    ∀ (l : List α) (n : Nat) (p : Nat × α), p ∈ l.enumFrom n → p.2 ∈ l := by
  intro l
  induction l with
  | nil => intro n p h; simp [List.enumFrom] at h
  | cons a t ih =>
    intro n p h
    simp only [List.enumFrom, List.mem_cons] at h
    rcases h with h | h
    · subst h; exact List.mem_cons_self a t
    · exact List.mem_cons_of_mem a (ih (n + 1) p h)

/-- Inversion of a successful parse: the long table is the melt of the
body over the extracted dates. -/
theorem parse_ok_inv (input : RawExport) (today : Int)
    (longs : List LongRecord) (rd : Int)
    (hparse : parse_workamajig_csv input today = some (longs, rd)) :
    longs = meltRecords (extract_dates input.monthRow input.dayRow) input.body := by
  unfold parse_workamajig_csv at hparse
  split at hparse
  · exact absurd hparse (by simp)
  · split at hparse
    · exact absurd hparse (by simp)
    · split at hparse
      · exact absurd hparse (by simp)
      · simp only [Option.some.injEq, Prod.mk.injEq] at hparse
        exact hparse.1.symm

/-! ## Claim theorems -/

/-- Claim C1: the source regular expression is the raw string
r"Start Date:\\s*(...)", whose double backslash demands a literal
backslash character after the colon. A header cell in the documented
format "Start Date: MM/DD/YYYY" therefore never matches and the report
date silently falls back to today, while a header containing an actual
backslash does match. Evaluated on the concrete header text of the spec
scenario. -/
theorem C1_regex_requires_backslash :
    searchStartDate "Report — Start Date: 03/03/2025" = none ∧
    parse_workamajig_csv
      { firstCell := "Report — Start Date: 03/03/2025", monthRow := [],
        dayRow := [], bodyNCols := 5, body := [] } 9999 = some ([], 9999) ∧
    searchStartDate "Start Date:\\s03/03/2025" = some (3, 3, 2025) := by
  refine ⟨by decide, by decide, by decide⟩

/-- Claim C2: build_weekly_headcount has no window parameter; the window
is hardcoded to 12 weeks. A row at exactly report_date + 84 days is kept
and a row at report_date + 91 days (the 13-week boundary the claim says
must be included for window_weeks = 13) is dropped. -/
theorem C2_window_fixed_at_twelve_weeks :
    (build_weekly_headcount [⟨"X", some 84, 32⟩] [⟨"X", "Video"⟩] [] 0).1 =
      [⟨"Video", 84, 1, 1, 0⟩] ∧
    (build_weekly_headcount [⟨"X", some 91, 32⟩] [⟨"X", "Video"⟩] [] 0).1 = [] := by
  constructor
  · simp [build_weekly_headcount, rowsOf, keysOf, validMerged, mergeLeft,
      mergeRow, matchesFor, validDF, VALID_DEPARTMENTS, demandOf,
      availableLookup, deptCounts, HOURS_PER_FTE]
  · simp [build_weekly_headcount, rowsOf, keysOf, validMerged, mergeLeft,
      mergeRow, matchesFor, validDF, VALID_DEPARTMENTS, demandOf,
      availableLookup, deptCounts, HOURS_PER_FTE]

/-- Claim C4, counterexample: an export body cell holding the numeric
text -5 parses successfully and yields a LongRecord whose Hours is -5,
which is negative: the parser does not enforce Hours at least 0. -/
theorem C4_counterexample_negative_hours :
    parse_workamajig_csv
      { firstCell := "x", monthRow := [Cell.str "March 2025"],
        dayRow := [Cell.num 3], bodyNCols := 6,
        body := [⟨"Jane", [Cell.str "-5"]⟩] } 0 =
      some ([⟨"Jane", some 20150, -5⟩], 0) ∧
    ¬ (0 ≤ (⟨"Jane", some 20150, (-5 : ℚ)⟩ : LongRecord).hours) := by
  refine ⟨by decide, by decide⟩

/-- Claim C4, amended: every hour value in the long table is the
coercion of its body cell (blank and non-numeric text coerce to 0);
hence Hours is nonnegative whenever every hour cell coerces to a
nonnegative value, but a negative numeric cell passes through. -/
theorem C4_hours_nonneg_of_cells_nonneg (input : RawExport) (today : Int)
    (longs : List LongRecord) (rd : Int)
    (hparse : parse_workamajig_csv input today = some (longs, rd))
    (hcells : ∀ row ∈ input.body, ∀ c ∈ row.cells, 0 ≤ coerceHours c) :
    ∀ r ∈ longs, 0 ≤ r.hours := by
  intro r hr
  rw [parse_ok_inv input today longs rd hparse] at hr
  simp only [meltRecords, List.mem_flatMap, List.mem_map] at hr
  obtain ⟨jw, _, row, hrow, rfl⟩ := hr
  rcases getD_mem_or_eq row.cells jw.1 Cell.blank with h | h
  · exact hcells row hrow _ h
  · simp only [h, coerceHours]
    exact le_refl 0

/-- Witness for C4: the amended theorem applied to a concrete export
with the nonnegative cell 7. -/
theorem C4_hours_nonneg_of_cells_nonneg_witness :
    parse_workamajig_csv
      { firstCell := "x", monthRow := [Cell.str "March 2025"],
        dayRow := [Cell.num 3], bodyNCols := 6,
        body := [⟨"Jane", [Cell.num 7]⟩] } 0 =
      some ([⟨"Jane", some 20150, 7⟩], 0) ∧
    0 ≤ (⟨"Jane", some 20150, (7 : ℚ)⟩ : LongRecord).hours :=
  ⟨by decide,
   C4_hours_nonneg_of_cells_nonneg
     { firstCell := "x", monthRow := [Cell.str "March 2025"],
       dayRow := [Cell.num 3], bodyNCols := 6,
       body := [⟨"Jane", [Cell.num 7]⟩] } 0
     [⟨"Jane", some 20150, 7⟩] 0 (by decide) (by decide)
     ⟨"Jane", some 20150, 7⟩ (by decide)⟩

/-- Claim C5, counterexample: a header column whose month token is the
text garbage gets the undefined date marker, yet the parser does not
exclude it: the melt emits a LongRecord with the undefined week carrying
the hour value 48 of that column. -/
theorem C5_counterexample_undefined_week_record :
    parse_workamajig_csv
      { firstCell := "x",
        monthRow := [Cell.str "March 2025", Cell.str "garbage"],
        dayRow := [Cell.num 3, Cell.num 10], bodyNCols := 7,
        body := [⟨"Jane", [Cell.num 16, Cell.num 48]⟩] } 0 =
      some ([⟨"Jane", some 20150, 16⟩, ⟨"Jane", none, 48⟩], 0) ∧
    ¬ (∀ r ∈ [(⟨"Jane", some 20150, (16 : ℚ)⟩ : LongRecord),
              ⟨"Jane", none, 48⟩], r.week ≠ none) := by
  refine ⟨by decide, by decide⟩

/-- Claim C5, amended: every record of the parser output takes its Week
from the extracted column-label list: a valid date for a parseable
column, the undefined marker for an unparseable one. Undefined-week
records remain in the parser output; they are only dropped downstream. -/
theorem C5_week_is_a_column_label (input : RawExport) (today : Int)
    (longs : List LongRecord) (rd : Int)
    (hparse : parse_workamajig_csv input today = some (longs, rd)) :
    ∀ r ∈ longs, r.week ∈ extract_dates input.monthRow input.dayRow := by
  intro r hr
  rw [parse_ok_inv input today longs rd hparse] at hr
  simp only [meltRecords, List.mem_flatMap, List.mem_map] at hr
  obtain ⟨jw, hjw, row, _, rfl⟩ := hr
  exact snd_mem_of_enumFrom _ 0 jw hjw

/-- Witness for C5: the amended theorem applied to the concrete export
with one parseable and one unparseable column. -/
theorem C5_week_is_a_column_label_witness :
    parse_workamajig_csv
      { firstCell := "x",
        monthRow := [Cell.str "March 2025", Cell.str "garbage"],
        dayRow := [Cell.num 3, Cell.num 10], bodyNCols := 7,
        body := [⟨"Jane", [Cell.num 16, Cell.num 48]⟩] } 0 =
      some ([⟨"Jane", some 20150, 16⟩, ⟨"Jane", none, 48⟩], 0) ∧
    (⟨"Jane", none, (48 : ℚ)⟩ : LongRecord).week ∈
      extract_dates [Cell.str "March 2025", Cell.str "garbage"]
        [Cell.num 3, Cell.num 10] :=
  ⟨by decide,
   C5_week_is_a_column_label
     { firstCell := "x",
       monthRow := [Cell.str "March 2025", Cell.str "garbage"],
       dayRow := [Cell.num 3, Cell.num 10], bodyNCols := 7,
       body := [⟨"Jane", [Cell.num 16, Cell.num 48]⟩] } 0
     [⟨"Jane", some 20150, 16⟩, ⟨"Jane", none, 48⟩] 0 (by decide)
     ⟨"Jane", none, 48⟩ (by decide)⟩

/-- Claim C9: when the body table is narrower than the extracted week
column list, the column assignment of the source raises (a length
mismatch) and the parser surfaces a fatal error: no partial long table
is produced. -/
theorem C9_shape_mismatch_is_fatal (input : RawExport) (today : Int)
    (h : input.bodyNCols <
      (extract_dates input.monthRow input.dayRow).length) :
    parse_workamajig_csv input today = none := by
  unfold parse_workamajig_csv
  split
  · rfl
  · split
    · rfl
    · split
      · rfl
      · rename_i hcond
        exact absurd ⟨by omega, by omega⟩ hcond

/-- Witness for C9: a concrete export with four header week columns and
a three-column body is rejected. -/
theorem C9_shape_mismatch_is_fatal_witness :
    ({ firstCell := "x",
       monthRow := [Cell.str "a", Cell.str "b", Cell.str "c", Cell.str "d"],
       dayRow := [Cell.num 1, Cell.num 2, Cell.num 3, Cell.num 4],
       bodyNCols := 3, body := [] } : RawExport).bodyNCols <
      (extract_dates [Cell.str "a", Cell.str "b", Cell.str "c", Cell.str "d"]
        [Cell.num 1, Cell.num 2, Cell.num 3, Cell.num 4]).length ∧
    parse_workamajig_csv
      { firstCell := "x",
        monthRow := [Cell.str "a", Cell.str "b", Cell.str "c", Cell.str "d"],
        dayRow := [Cell.num 1, Cell.num 2, Cell.num 3, Cell.num 4],
        bodyNCols := 3, body := [] } 0 = none :=
  ⟨by decide,
   C9_shape_mismatch_is_fatal
     { firstCell := "x",
       monthRow := [Cell.str "a", Cell.str "b", Cell.str "c", Cell.str "d"],
       dayRow := [Cell.num 1, Cell.num 2, Cell.num 3, Cell.num 4],
       bodyNCols := 3, body := [] } 0 (by decide)⟩

/-- Claim C6: every row of the weekly gap table satisfies
Gap = Available - Demand (never the reverse), by the construction of the
row before the window mask. -/
theorem C6_gap_eq_available_sub_demand (longs : List LongRecord)
    (employees services : List RosterRow) (report_date : Int) :
    ∀ row ∈ (build_weekly_headcount longs employees services report_date).1,
      row.gap = (row.available : ℚ) - row.demand := by
  intro row hrow
  simp only [build_weekly_headcount, List.mem_filter] at hrow
  obtain ⟨hmem, _⟩ := hrow
  simp only [rowsOf, List.mem_map] at hmem
  obtain ⟨k, _, rfl⟩ := hmem
  rfl

/-- Witness for C6: a concrete output row of the aggregator satisfies
the gap identity. -/
theorem C6_gap_eq_available_sub_demand_witness :
    (⟨"Video", 84, 1, 1, 0⟩ : WeeklyGapRow) ∈
      (build_weekly_headcount [⟨"X", some 84, 32⟩] [⟨"X", "Video"⟩] [] 0).1 ∧
    (⟨"Video", 84, 1, 1, 0⟩ : WeeklyGapRow).gap =
      ((⟨"Video", 84, 1, 1, 0⟩ : WeeklyGapRow).available : ℚ) -
        (⟨"Video", 84, 1, 1, 0⟩ : WeeklyGapRow).demand :=
  ⟨by
    simp [build_weekly_headcount, rowsOf, keysOf, validMerged, mergeLeft,
      mergeRow, matchesFor, validDF, VALID_DEPARTMENTS, demandOf,
      availableLookup, deptCounts, HOURS_PER_FTE],
   C6_gap_eq_available_sub_demand [⟨"X", some 84, 32⟩] [⟨"X", "Video"⟩] [] 0
     ⟨"Video", 84, 1, 1, 0⟩
     (by
       simp [build_weekly_headcount, rowsOf, keysOf, validMerged, mergeLeft,
         mergeRow, matchesFor, validDF, VALID_DEPARTMENTS, demandOf,
         availableLookup, deptCounts, HOURS_PER_FTE])⟩

theorem lookup_map_self {α β : Type _} [DecidableEq α] (l : List α)
    (f : α → β) (d : α) :
    (l.map (fun x => (x, f x))).lookup d =
      if d ∈ l then some (f d) else none := by
  induction l with
  | nil => simp
  | cons a t ih =>
    by_cases h : a = d
    · subst h
      simp [List.lookup]
    · have hda : ¬ d = a := fun hda => h hda.symm
      have h2 : (d == a) = false := beq_eq_false_iff_ne.mpr hda
      simp [List.lookup, h2, ih, hda]

/-- The reindexed availability of a department equals the raw count of
employee rows in that department (0 when the department is absent). -/
theorem availableLookup_eq_count (employees : List RosterRow) (d : String) :
    availableLookup employees d =
      ((employees.filter (fun e => e.department = d)).length : ℤ) := by
  unfold availableLookup deptCounts
  rw [lookup_map_self]
  by_cases h : d ∈ (employees.map (fun e => e.department)).dedup
  · simp [h]
  · have hnone : ∀ e ∈ employees, ¬ (e.department = d) := by
      intro e he heq
      exact h (List.mem_dedup.mpr (List.mem_map.mpr ⟨e, he, heq⟩))
    have hfil : employees.filter (fun e => e.department = d) = [] := by
      rw [List.filter_eq_nil_iff]
      intro e he
      simpa using hnone e he
    simp [h, hfil]

/-- Claim C7: for every input, the AvailableHeadcount mapping has
exactly the canonical departments as keys, in order, and each value is
the nonnegative count of employee-roster rows of that department. -/
theorem C7_available_exactly_canonical (longs : List LongRecord)
    (employees services : List RosterRow) (report_date : Int) :
    ((build_weekly_headcount longs employees services report_date).2).map
        Prod.fst = VALID_DEPARTMENTS ∧
    ∀ p ∈ (build_weekly_headcount longs employees services report_date).2,
      p.2 = ((employees.filter (fun e => e.department = p.1)).length : ℤ) ∧
        0 ≤ p.2 := by
  constructor
  · have hid : (Prod.fst ∘ fun d : String => (d, availableLookup employees d)) =
        id := rfl
    simp [build_weekly_headcount, availableHeadcount, List.map_map, hid]
  · intro p hp
    simp only [build_weekly_headcount, availableHeadcount, List.mem_map] at hp
    obtain ⟨d, _, rfl⟩ := hp
    refine ⟨availableLookup_eq_count employees d, ?_⟩
    exact Int.natCast_nonneg _

/-- Witness for C7: the availability map of a one-employee roster holds
the pair (Video, 1), whose value is the count of Video employees. -/
theorem C7_available_exactly_canonical_witness :
    ("Video", (1 : ℤ)) ∈
      (build_weekly_headcount [] [⟨"A", "Video"⟩] [] 0).2 ∧
    ((("Video", (1 : ℤ)) : String × ℤ).2 =
      (([⟨"A", "Video"⟩] : List RosterRow).filter
        (fun e => e.department = ("Video", (1 : ℤ)).1)).length ∧
      0 ≤ (("Video", (1 : ℤ)) : String × ℤ).2) :=
  ⟨by decide,
   (C7_available_exactly_canonical [] [⟨"A", "Video"⟩] [] 0).2
     ("Video", (1 : ℤ)) (by decide)⟩

/-! ## Decomposition lemmas for the join -/

theorem validMerged_nil (mapping : List RosterRow) :
    validMerged [] mapping = [] := rfl

theorem validMerged_cons (r : LongRecord) (l : List LongRecord)
    (mapping : List RosterRow) :
    validMerged (r :: l) mapping =
      (mergeRow mapping r).filterMap validDF ++ validMerged l mapping := by
  simp [validMerged, mergeLeft, List.filterMap_append]

theorem mem_contrib_fst (mapping : List RosterRow) (r : LongRecord)
    (x : LongRecord × String)
    (hx : x ∈ (mergeRow mapping r).filterMap validDF) : x.1 = r := by
  simp only [List.mem_filterMap] at hx
  obtain ⟨a, ha, hval⟩ := hx
  have ha1 : a.1 = r := by
    unfold mergeRow at ha
    split at ha
    · simp only [List.mem_singleton] at ha
      rw [ha]
    · simp only [List.mem_map] at ha
      obtain ⟨m, _, rfl⟩ := ha
      rfl
  obtain ⟨a1, a2⟩ := a
  cases a2 with
  | none => exact absurd hval (by simp [validDF])
  | some d =>
    simp only [validDF] at hval
    split at hval
    · simp only [Option.some.injEq] at hval
      rw [← hval]
      exact ha1
    · exact absurd hval (by simp)

theorem demandOf_nil (dept : String) (w : Int) : demandOf [] dept w = 0 := rfl

theorem demandOf_cons (x : LongRecord × String)
    (l : List (LongRecord × String)) (dept : String) (w : Int) :
    demandOf (x :: l) dept w =
      (if x.2 = dept ∧ x.1.week = some w then x.1.hours / HOURS_PER_FTE
       else 0) + demandOf l dept w := by
  unfold demandOf
  rw [List.filter_cons]
  by_cases h : x.2 = dept ∧ x.1.week = some w
  · simp [h]
  · simp [h]

theorem demandOf_append (a b : List (LongRecord × String)) (dept : String)
    (w : Int) :
    demandOf (a ++ b) dept w = demandOf a dept w + demandOf b dept w := by
  induction a with
  | nil => simp [demandOf_nil]
  | cons x t ih => simp [demandOf_cons, ih, add_assoc]

/-- The number of roster entries of a given name that map it to a given
department, in the concatenated mapping. -/
def validMatchCount (mapping : List RosterRow) (n dept : String) : Nat :=
  ((matchesFor mapping n).filter (fun m => m.department = dept)).length

theorem demand_over_entries (r : LongRecord) (ms : List RosterRow)
    (dept : String) (w : Int) (hdept : dept ∈ VALID_DEPARTMENTS) :
    demandOf ((ms.map (fun m => (r, some m.department))).filterMap validDF)
        dept w =
      if r.week = some w then
        ((ms.filter (fun m => m.department = dept)).length : ℚ) *
          (r.hours / HOURS_PER_FTE)
      else 0 := by
  induction ms with
  | nil => simp [demandOf_nil]
  | cons m ms ih =>
    rw [List.map_cons, List.filter_cons]
    by_cases hd : m.department = dept
    · have hv : m.department ∈ VALID_DEPARTMENTS := hd ▸ hdept
      have hval : validDF (r, some m.department) = some (r, m.department) := by
        simp [validDF, hv]
      rw [List.filterMap_cons_some hval, demandOf_cons, ih]
      by_cases hw : r.week = some w
      · simp only [hd, hw, and_self, if_true, decide_True, List.length_cons]
        push_cast
        ring
      · simp [hw]
    · by_cases hv : m.department ∈ VALID_DEPARTMENTS
      · have hval : validDF (r, some m.department) = some (r, m.department) := by
          simp [validDF, hv]
        rw [List.filterMap_cons_some hval, demandOf_cons, ih]
        simp [hd]
      · have hval : validDF (r, some m.department) = none := by
          simp [validDF, hv]
        rw [List.filterMap_cons_none hval, ih]
        simp [hd]

theorem contrib_demand (mapping : List RosterRow) (r : LongRecord)
    (dept : String) (w : Int) (hdept : dept ∈ VALID_DEPARTMENTS) :
    demandOf ((mergeRow mapping r).filterMap validDF) dept w =
      if r.week = some w then
        (validMatchCount mapping r.name dept : ℚ) * (r.hours / HOURS_PER_FTE)
      else 0 := by
  unfold mergeRow validMatchCount
  by_cases hemp : (matchesFor mapping r.name).isEmpty
  · have hnil : matchesFor mapping r.name = [] := by
      simpa [List.isEmpty_iff] using hemp
    simp [hemp, hnil, validDF, demandOf]
  · rw [if_neg hemp]
    exact demand_over_entries r (matchesFor mapping r.name) dept w hdept

/-- Demand of a group equals the sum, over all long records, of the
FTE contribution of the record weighted by the number of mapping entries
that attach it to the department of the group. -/
theorem demand_eq_weighted_sum (longs : List LongRecord)
    (mapping : List RosterRow) (dept : String) (w : Int)
    (hdept : dept ∈ VALID_DEPARTMENTS) :
    demandOf (validMerged longs mapping) dept w =
      (longs.map (fun r =>
        if r.week = some w then
          (validMatchCount mapping r.name dept : ℚ) *
            (r.hours / HOURS_PER_FTE)
        else 0)).sum := by
  induction longs with
  | nil => simp [validMerged_nil, demandOf_nil]
  | cons r l ih =>
    rw [validMerged_cons, demandOf_append,
      contrib_demand mapping r dept w hdept, ih, List.map_cons,
      List.sum_cons]

/-- Claim C3, counterexample: the name X is in the employees table under
Video and in the services table under Strategy. Its single 32-hour
record is joined once per entry, so its hours appear under BOTH
departments (1 FTE each), not exactly once under the later entry. -/
theorem C3_counterexample_duplicate_name :
    (build_weekly_headcount [⟨"X", some 7, 32⟩] [⟨"X", "Video"⟩]
        [⟨"X", "Strategy"⟩] 0).1 =
      [⟨"Video", 7, 1, 1, 0⟩, ⟨"Strategy", 7, 1, 0, -1⟩] ∧
    ("Video", (1 : ℚ)) ∈
      ((build_weekly_headcount [⟨"X", some 7, 32⟩] [⟨"X", "Video"⟩]
          [⟨"X", "Strategy"⟩] 0).1.map (fun row => (row.department, row.demand))) ∧
    ¬ (∀ row ∈ (build_weekly_headcount [⟨"X", some 7, 32⟩] [⟨"X", "Video"⟩]
          [⟨"X", "Strategy"⟩] 0).1, row.department = "Strategy") := by
  have h : (build_weekly_headcount [⟨"X", some 7, 32⟩] [⟨"X", "Video"⟩]
      [⟨"X", "Strategy"⟩] 0).1 =
      [⟨"Video", 7, 1, 1, 0⟩, ⟨"Strategy", 7, 1, 0, -1⟩] := by
    simp [build_weekly_headcount, rowsOf, keysOf, validMerged, mergeLeft,
      mergeRow, matchesFor, validDF, VALID_DEPARTMENTS, demandOf,
      availableLookup, deptCounts, HOURS_PER_FTE, List.lookup]
  refine ⟨h, by rw [h]; simp, fun hall => ?_⟩
  have := hall ⟨"Video", 7, 1, 1, 0⟩ (by rw [h]; simp)
  simp at this

/-- Claim C3, amended: when a resource name has one entry in the
employees table (department dA) and one in the services table
(department dB), the left join duplicates each of its long records, one
merged row per entry: its full hours count toward dA AND toward dB;
there is no last-write-wins resolution. -/
theorem C3_hours_count_once_per_entry (employees services : List RosterRow)
    (longs : List LongRecord) (n dA dB : String) (w : Int)
    (hemp : matchesFor employees n = [⟨n, dA⟩])
    (hsvc : matchesFor services n = [⟨n, dB⟩])
    (hAB : dA ≠ dB)
    (hAv : dA ∈ VALID_DEPARTMENTS) (hBv : dB ∈ VALID_DEPARTMENTS)
    (hnames : ∀ r ∈ longs, r.name = n) :
    demandOf (validMerged longs (employees ++ services)) dA w =
      (longs.map (fun r =>
        if r.week = some w then r.hours / HOURS_PER_FTE else 0)).sum ∧
    demandOf (validMerged longs (employees ++ services)) dB w =
      (longs.map (fun r =>
        if r.week = some w then r.hours / HOURS_PER_FTE else 0)).sum := by
  have hboth : matchesFor (employees ++ services) n = [⟨n, dA⟩, ⟨n, dB⟩] := by
    unfold matchesFor at hemp hsvc ⊢
    rw [List.filter_append, hemp, hsvc]
    rfl
  have hcA : validMatchCount (employees ++ services) n dA = 1 := by
    unfold validMatchCount
    rw [hboth]
    simp [Ne.symm hAB]
  have hcB : validMatchCount (employees ++ services) n dB = 1 := by
    unfold validMatchCount
    rw [hboth]
    simp [hAB]
  constructor
  · rw [demand_eq_weighted_sum longs (employees ++ services) dA w hAv]
    congr 1
    apply List.map_congr_left
    intro r hr
    rw [hnames r hr, hcA]
    simp
  · rw [demand_eq_weighted_sum longs (employees ++ services) dB w hBv]
    congr 1
    apply List.map_congr_left
    intro r hr
    rw [hnames r hr, hcB]
    simp

/-- Witness for C3: the amended theorem at the concrete duplicate-name
input of the counterexample. -/
theorem C3_hours_count_once_per_entry_witness :
    matchesFor [(⟨"X", "Video"⟩ : RosterRow)] "X" = [⟨"X", "Video"⟩] ∧
    matchesFor [(⟨"X", "Strategy"⟩ : RosterRow)] "X" = [⟨"X", "Strategy"⟩] ∧
    ("Video" : String) ≠ "Strategy" ∧
    (demandOf (validMerged [⟨"X", some 7, 32⟩]
        ([⟨"X", "Video"⟩] ++ [⟨"X", "Strategy"⟩])) "Video" 7 =
      (([⟨"X", some 7, 32⟩] : List LongRecord).map (fun r =>
        if r.week = some 7 then r.hours / HOURS_PER_FTE else 0)).sum ∧
    demandOf (validMerged [⟨"X", some 7, 32⟩]
        ([⟨"X", "Video"⟩] ++ [⟨"X", "Strategy"⟩])) "Strategy" 7 =
      (([⟨"X", some 7, 32⟩] : List LongRecord).map (fun r =>
        if r.week = some 7 then r.hours / HOURS_PER_FTE else 0)).sum) :=
  ⟨by decide, by decide, by decide,
   C3_hours_count_once_per_entry [⟨"X", "Video"⟩] [⟨"X", "Strategy"⟩]
     [⟨"X", some 7, 32⟩] "X" "Video" "Strategy" 7 (by decide) (by decide)
     (by decide) (by decide) (by decide) (by decide)⟩

/-! ## Unmapped resources and null weeks -/

theorem contrib_nil_of_unmapped (mapping : List RosterRow) (r : LongRecord)
    (hno : ∀ m ∈ mapping, m.name = r.name →
      m.department ∉ VALID_DEPARTMENTS) :
    (mergeRow mapping r).filterMap validDF = [] := by
  unfold mergeRow
  by_cases hemp : (matchesFor mapping r.name).isEmpty
  · simp [hemp, validDF]
  · rw [if_neg hemp, List.filterMap_eq_nil_iff]
    intro a ha
    simp only [List.mem_map] at ha
    obtain ⟨m, hm, rfl⟩ := ha
    have hmm : m ∈ mapping ∧ m.name = r.name := by
      simpa [matchesFor, List.mem_filter] using hm
    simp [validDF, hno m hmm.1 hmm.2]

theorem validMerged_erase_unmapped (longs : List LongRecord)
    (mapping : List RosterRow) (n : String)
    (hno : ∀ m ∈ mapping, m.name = n → m.department ∉ VALID_DEPARTMENTS) :
    validMerged (longs.filter (fun r => r.name ≠ n)) mapping =
      validMerged longs mapping := by
  induction longs with
  | nil => rfl
  | cons r l ih =>
    rw [List.filter_cons]
    by_cases hr : r.name = n
    · rw [if_neg (by simp [hr]), ih, validMerged_cons,
        contrib_nil_of_unmapped mapping r (fun m hm hname =>
          hno m hm (hr ▸ hname))]
      rfl
    · rw [if_pos (by simp [hr]), validMerged_cons, validMerged_cons, ih]

/-- Claim C8: a resource name with no roster entry, or all of whose
roster entries carry a non-canonical department, is discarded by the
join filter: removing all of its long records does not change the
aggregator output at all, so its hours never reach any Demand sum. -/
theorem C8_unmapped_resource_contributes_nothing (longs : List LongRecord)
    (employees services : List RosterRow) (report_date : Int) (n : String)
    (hno : ∀ m ∈ employees ++ services, m.name = n →
      m.department ∉ VALID_DEPARTMENTS) :
    build_weekly_headcount (longs.filter (fun r => r.name ≠ n)) employees
        services report_date =
      build_weekly_headcount longs employees services report_date := by
  unfold build_weekly_headcount
  rw [validMerged_erase_unmapped longs (employees ++ services) n hno]

/-- Witness for C8: dropping the records of the unrostered name Ghost
leaves the aggregator output unchanged. -/
theorem C8_unmapped_resource_contributes_nothing_witness :
    (∀ m ∈ ([⟨"Jane", "Video"⟩] : List RosterRow) ++ [], m.name = "Ghost" →
      m.department ∉ VALID_DEPARTMENTS) ∧
    build_weekly_headcount
        (([⟨"Jane", some 7, 32⟩, ⟨"Ghost", some 7, 99⟩] :
          List LongRecord).filter (fun r => r.name ≠ "Ghost"))
        [⟨"Jane", "Video"⟩] [] 0 =
      build_weekly_headcount [⟨"Jane", some 7, 32⟩, ⟨"Ghost", some 7, 99⟩]
        [⟨"Jane", "Video"⟩] [] 0 :=
  ⟨by decide,
   C8_unmapped_resource_contributes_nothing
     [⟨"Jane", some 7, 32⟩, ⟨"Ghost", some 7, 99⟩] [⟨"Jane", "Video"⟩] []
     0 "Ghost" (by decide)⟩

theorem validMerged_filter_isSome (longs : List LongRecord)
    (mapping : List RosterRow) :
    validMerged (longs.filter (fun r => r.week.isSome)) mapping =
      (validMerged longs mapping).filter (fun rd => rd.1.week.isSome) := by
  induction longs with
  | nil => rfl
  | cons r l ih =>
    rw [List.filter_cons, validMerged_cons, List.filter_append, ← ih]
    by_cases hw : r.week.isSome
    · rw [if_pos hw, validMerged_cons]
      congr 1
      exact (List.filter_eq_self.mpr (fun x hx => by
        rw [mem_contrib_fst mapping r x hx]
        exact hw)).symm
    · rw [if_neg hw]
      have hnil : ((mergeRow mapping r).filterMap validDF).filter
          (fun rd => rd.1.week.isSome) = [] := by
        rw [List.filter_eq_nil_iff]
        intro x hx
        rw [mem_contrib_fst mapping r x hx]
        simpa using hw
      rw [hnil]
      rfl

theorem keysOf_filter_isSome (merged : List (LongRecord × String)) :
    keysOf (merged.filter (fun rd => rd.1.week.isSome)) = keysOf merged := by
  unfold keysOf
  congr 1
  induction merged with
  | nil => rfl
  | cons x l ih =>
    rw [List.filter_cons]
    by_cases h : x.1.week.isSome
    · rw [if_pos h, List.filterMap_cons, List.filterMap_cons, ih]
    · have hnone : x.1.week = none := by
        simpa [Option.not_isSome_iff_eq_none] using h
      rw [if_neg h, List.filterMap_cons, hnone, ih]
      rfl

theorem demandOf_filter_isSome (merged : List (LongRecord × String))
    (dept : String) (w : Int) :
    demandOf (merged.filter (fun rd => rd.1.week.isSome)) dept w =
      demandOf merged dept w := by
  induction merged with
  | nil => rfl
  | cons x l ih =>
    rw [List.filter_cons]
    by_cases h : x.1.week.isSome
    · rw [if_pos h, demandOf_cons, demandOf_cons, ih]
    · have hnone : x.1.week = none := by
        simpa [Option.not_isSome_iff_eq_none] using h
      rw [if_neg h, demandOf_cons, ih, hnone]
      simp

/-- Claim C10: records whose Week is the null marker never reach the
aggregated output: the group-by drops null week keys, so dropping those
records beforehand changes nothing, and every output row carries a
definite (non-null) week by construction of the group keys. -/
theorem C10_null_weeks_never_aggregated (longs : List LongRecord)
    (employees services : List RosterRow) (report_date : Int) :
    build_weekly_headcount (longs.filter (fun r => r.week.isSome))
        employees services report_date =
      build_weekly_headcount longs employees services report_date := by
  unfold build_weekly_headcount rowsOf
  rw [validMerged_filter_isSome, keysOf_filter_isSome]
  simp only [demandOf_filter_isSome]

end Hart
